import Mathlib

/-!
Shallow embedding of the GPU_Orchestrator operator (Go), covering:
  - the scheduling strategies (src/internal/scheduling/strategy.go),
  - the exponential backoff calculator (src/internal/backoff/backoff.go),
  - the GPUWorkload reconciliation loop, deletion handling and Job creation
    (src/controllers/gpuworkload_controller.go),
  - the GPUWorkload API types (src/api/v1alpha1/gpuworkload_types.go).

Machine integers (int32/int64) are modelled as Int; the values involved stay
far below 2^63 so overflow never occurs on the modelled paths.  float64
arithmetic in the backoff calculator is modelled with exact rationals: at the
magnitudes involved (nanosecond counts below 2^49 scaled by powers of two)
the Go float64 computations are exact, except for the 0.1 jitter factor whose
sub-ulp rounding cannot change any of the interval facts proved here.
Durations are nanosecond counts (time.Duration).
-/

namespace GPUOrch

/-! ## Node model (corev1.Node, restricted to the fields the code reads) -/

structure NodeCondition where
  condType : String
  status : String
deriving DecidableEq

/-- A cluster node: name, the nvidia.com/gpu entry of status.allocatable and
status.capacity (absent when the resource map has no such key), labels, and
status.conditions. -/
structure Node where
  name : String
  allocatableGPU : Option Int
  capacityGPU : Option Int
  labels : List (String × String)
  conditions : List NodeCondition
deriving DecidableEq

/-- Association-list lookup on labels (Go map indexing with ok-flag). -/
def lookupLabel (labels : List (String × String)) (key : String) : Option String :=
  (labels.find? (fun p => p.1 == key)).map (fun p => p.2)

/-- fmt.Sscanf(s, "%d", &count): skip leading spaces, optional sign, longest
digit prefix; on scan failure the target keeps its zero value. -/
def scanGoInt (s : String) : Int :=
  let cs := s.data.dropWhile (fun c => c == ' ')
  let signAndRest : Int × List Char :=
    match cs with
    | '-' :: r => (-1, r)
    | '+' :: r => (1, r)
    | r => (1, r)
  let ds := signAndRest.2.takeWhile Char.isDigit
  if ds.isEmpty then 0
  else signAndRest.1 * (ds.foldl (fun a c => a * 10 + (c.toNat - 48)) 0 : Nat)

/-- getAvailableGPUs (strategy.go): allocatable nvidia.com/gpu, else capacity,
else the nvidia.com/gpu label parsed with Sscanf when positive, else 0. -/
def getAvailableGPUs (n : Node) : Int :=
  match n.allocatableGPU with
  | some q => q
  | none =>
    match n.capacityGPU with
    | some q => q
    | none =>
      match lookupLabel n.labels "nvidia.com/gpu" with
      | some s => let c := scanGoInt s; if 0 < c then c else 0
      | none => 0

/-! ## Scheduling strategies (strategy.go) -/

/-- The selection loop of LeastLoadedStrategy.ChooseNode: best node so far and
the running maximum (initialised to -1 by the caller). -/
def llLoop (gpuCount : Int) (best : Option Node) (mx : Int) : List Node → Option Node
  | [] => best
  | n :: rest =>
    if gpuCount ≤ getAvailableGPUs n ∧ mx < getAvailableGPUs n then
      llLoop gpuCount (some n) (getAvailableGPUs n) rest
    else
      llLoop gpuCount best mx rest

/-- LeastLoadedStrategy.ChooseNode.  none stands for the NotFound error
(both the empty-input error and the no-qualifying-node error). -/
def chooseNodeLL (nodes : List Node) (gpuCount : Int) : Option Node :=
  if nodes.isEmpty then none
  else llLoop gpuCount none (-1) nodes

/-- Capacity test shared by the strategies: availableGPUs ≥ request.gpuCount. -/
def qualifies (gpuCount : Int) (n : Node) : Bool :=
  decide (gpuCount ≤ getAvailableGPUs n)

/-- The low-cost label test of CostOptimizedStrategy. -/
def isCheapNode (n : Node) : Bool :=
  lookupLabel n.labels "gpu-orchestrator/cheap-node" == some "true"

/-- The max-only loop of the CostOptimizedStrategy cheap branch (no capacity
re-test: the cheap list was already capacity-filtered). -/
def coLoop (best : Option Node) (mx : Int) : List Node → Option Node
  | [] => best
  | n :: rest =>
    if mx < getAvailableGPUs n then
      coLoop (some n) (getAvailableGPUs n) rest
    else
      coLoop best mx rest

/-- CostOptimizedStrategy.ChooseNode: filter to labelled nodes satisfying
capacity; if non-empty pick the max-GPU node among them, otherwise fall back
to LeastLoadedStrategy on the full input. -/
def chooseNodeCO (nodes : List Node) (gpuCount : Int) : Option Node :=
  if nodes.isEmpty then none
  else
    let cheap := nodes.filter (fun n => isCheapNode n && qualifies gpuCount n)
    if cheap.isEmpty then chooseNodeLL nodes gpuCount
    else coLoop none (-1) cheap

/-- RandomStrategy.ChooseNode: filter to qualifying nodes, pick index
rand.Intn(len); the random draw is supplied as ridx (reduced mod length). -/
def chooseNodeRandom (nodes : List Node) (gpuCount : Int) (ridx : Nat) : Option Node :=
  if nodes.isEmpty then none
  else
    let suitable := nodes.filter (qualifies gpuCount)
    if suitable.isEmpty then none
    else suitable.get? (ridx % suitable.length)

/-! Specification-side selection rule (from the words of the spec, for the
refinement statements of C6/C7): among a list, the first node attaining the
maximal availableGPUs. -/

/-- First node of maximal availableGPUs (ties resolved to the earlier node). -/
def firstMaxByGPU : List Node → Option Node
  | [] => none
  | n :: rest =>
    match firstMaxByGPU rest with
    | none => some n
    | some m => if getAvailableGPUs n < getAvailableGPUs m then some m else some n

/-- The LeastLoaded rule as the spec words it: first maximal-GPU node among qualifiers. -/
def chooseNodeLLSpec (nodes : List Node) (gpuCount : Int) : Option Node :=
  firstMaxByGPU (nodes.filter (qualifies gpuCount))

/-! ## Backoff calculator (backoff.go)

NextBackoff(base, attempt) with the rand.Float64() draw passed in as randv.
float64 → time.Duration conversion truncates toward zero. -/

/-- Conversion of a float64 value to int64 nanoseconds (truncation toward 0). -/
def durTrunc (q : ℚ) : Int :=
  if 0 ≤ q then ⌊q⌋ else ⌈q⌉

/-- backoff.NextBackoff: clamp attempt from above at 10, exponentiate,
cap at 5 minutes, then add a jitter of rand.Float64() * expo * 0.1. -/
def nextBackoff (base : Int) (attempt : Int) (randv : ℚ) : Int :=
  let a : Int := if 10 < attempt then 10 else attempt
  let expo0 : ℚ := (base : ℚ) * (2 : ℚ) ^ a
  let maxDur : Int := 300000000000
  let expo : ℚ := if maxDur < durTrunc expo0 then (maxDur : ℚ) else expo0
  durTrunc expo + durTrunc (randv * expo * (1 / 10))

/-- The capped exponential value min(base·2^min(attempt,10), 5min) the spec
describes (nanoseconds), for non-negative attempts. -/
def cappedExp (base : Int) (attempt : Int) : Int :=
  min (base * 2 ^ (min attempt 10).toNat) 300000000000

/-- A ready node with the given nvidia.com/gpu allocatable/capacity count. -/
def testNode (nm : String) (g : Int) : Node :=
  ⟨nm, some g, some g, [], [⟨"Ready", "True"⟩]⟩

/-! ## Lemmas on the LeastLoaded selection loop -/

/-- Combining an accumulator (best, mx) with the result of a fresh run of the
selection loop: the fresh result wins exactly when it strictly beats mx. -/
def mergeBest (best : Option Node) (mx : Int) : Option Node → Option Node
  | none => best
  | some m => if mx < getAvailableGPUs m then some m else best

theorem llLoop_merge (c : Int) (hc : 1 ≤ c) :
    ∀ (l : List Node) (best : Option Node) (mx : Int),
      llLoop c best mx l = mergeBest best mx (llLoop c none (-1) l) := by
  intro l
  induction l with
  | nil => intro best mx; simp [llLoop, mergeBest]
  | cons n rest ih =>
    intro best mx
    by_cases hq : c ≤ getAvailableGPUs n
    · have hne : (-1 : Int) < getAvailableGPUs n := by omega
      by_cases hm : mx < getAvailableGPUs n
      · simp only [llLoop, if_pos (And.intro hq hm), if_pos (And.intro hq hne)]
        rw [ih (some n) (getAvailableGPUs n)]
        cases hF : llLoop c none (-1) rest with
        | none => simp [mergeBest, hm]
        | some m =>
          by_cases h2 : getAvailableGPUs n < getAvailableGPUs m
          · have h3 : mx < getAvailableGPUs m := by omega
            simp [mergeBest, h2, h3]
          · simp [mergeBest, h2, hm]
      · have hnot : ¬ (c ≤ getAvailableGPUs n ∧ mx < getAvailableGPUs n) := by tauto
        simp only [llLoop, if_neg hnot, if_pos (And.intro hq hne)]
        rw [ih best mx, ih (some n) (getAvailableGPUs n)]
        cases hF : llLoop c none (-1) rest with
        | none => simp [mergeBest, hm]
        | some m =>
          by_cases h2 : getAvailableGPUs n < getAvailableGPUs m
          · simp [mergeBest, h2]
          · have h3 : ¬ mx < getAvailableGPUs m := by omega
            simp [mergeBest, h2, hm, h3]
    · have hnot : ¬ (c ≤ getAvailableGPUs n ∧ mx < getAvailableGPUs n) := by tauto
      have hnot2 : ¬ (c ≤ getAvailableGPUs n ∧ (-1 : Int) < getAvailableGPUs n) := by tauto
      simp only [llLoop, if_neg hnot, if_neg hnot2]
      exact ih best mx

theorem llLoop_eq_firstMax (c : Int) (hc : 1 ≤ c) :
    ∀ l : List Node, llLoop c none (-1) l = firstMaxByGPU (l.filter (qualifies c)) := by
  intro l
  induction l with
  | nil => simp [llLoop, firstMaxByGPU]
  | cons n rest ih =>
    by_cases hq : c ≤ getAvailableGPUs n
    · have hne : (-1 : Int) < getAvailableGPUs n := by omega
      have hqb : qualifies c n = true := by simp [qualifies, hq]
      simp only [llLoop, if_pos (And.intro hq hne)]
      rw [llLoop_merge c hc rest (some n) (getAvailableGPUs n), ih,
        List.filter_cons_of_pos hqb]
      simp only [firstMaxByGPU]
      cases hF : firstMaxByGPU (rest.filter (qualifies c)) with
      | none => simp [mergeBest]
      | some m =>
        by_cases h2 : getAvailableGPUs n < getAvailableGPUs m <;>
          simp [mergeBest, h2]
    · have hnot : ¬ (c ≤ getAvailableGPUs n ∧ (-1 : Int) < getAvailableGPUs n) := by tauto
      have hqb : qualifies c n = false := by simp [qualifies, hq]
      simp only [llLoop, if_neg hnot]
      rw [ih, List.filter_cons_of_neg (by simp [hqb])]

theorem chooseNodeLL_eq_spec (nodes : List Node) (c : Int) (hc : 1 ≤ c) :
    chooseNodeLL nodes c = chooseNodeLLSpec nodes c := by
  cases nodes with
  | nil => rfl
  | cons n rest =>
    have hne : ((n :: rest).isEmpty = true) = False := by simp
    simp only [chooseNodeLL, hne, if_false]
    exact llLoop_eq_firstMax c hc (n :: rest)

theorem firstMaxByGPU_eq_none_iff (l : List Node) :
    firstMaxByGPU l = none ↔ l = [] := by
  cases l with
  | nil => simp [firstMaxByGPU]
  | cons n rest =>
    simp only [firstMaxByGPU]
    cases firstMaxByGPU rest with
    | none => simp
    | some m => by_cases h : getAvailableGPUs n < getAvailableGPUs m <;> simp [h]

theorem firstMaxByGPU_mem {l : List Node} {n : Node}
    (h : firstMaxByGPU l = some n) : n ∈ l := by
  induction l with
  | nil => simp [firstMaxByGPU] at h
  | cons x rest ih =>
    cases hF : firstMaxByGPU rest with
    | none => simp only [firstMaxByGPU, hF] at h; simp at h; simp [h]
    | some m =>
      simp only [firstMaxByGPU, hF] at h
      by_cases h2 : getAvailableGPUs x < getAvailableGPUs m
      · rw [if_pos h2] at h
        simp at h
        exact List.mem_cons_of_mem x (ih (h ▸ hF))
      · rw [if_neg h2] at h; simp at h; simp [h]

theorem firstMaxByGPU_le {l : List Node} {n : Node}
    (h : firstMaxByGPU l = some n) :
    ∀ m ∈ l, getAvailableGPUs m ≤ getAvailableGPUs n := by
  induction l generalizing n with
  | nil => simp [firstMaxByGPU] at h
  | cons x rest ih =>
    cases hF : firstMaxByGPU rest with
    | none =>
      simp only [firstMaxByGPU, hF] at h
      simp at h
      have hrest : rest = [] := (firstMaxByGPU_eq_none_iff rest).mp hF
      subst hrest
      simp [h]
    | some m =>
      simp only [firstMaxByGPU, hF] at h
      by_cases h2 : getAvailableGPUs x < getAvailableGPUs m
      · rw [if_pos h2] at h
        simp at h
        subst h
        intro y hy
        rcases List.mem_cons.mp hy with hy | hy
        · subst hy; omega
        · exact ih hF y hy
      · rw [if_neg h2] at h
        simp at h
        subst h
        intro y hy
        rcases List.mem_cons.mp hy with hy | hy
        · subst hy; omega
        · have := ih hF y hy; omega

theorem firstMaxByGPU_first {l : List Node} {n : Node}
    (h : firstMaxByGPU l = some n) :
    ∃ l₁ l₂, l = l₁ ++ n :: l₂ ∧
      ∀ m ∈ l₁, getAvailableGPUs m < getAvailableGPUs n := by
  induction l generalizing n with
  | nil => simp [firstMaxByGPU] at h
  | cons x rest ih =>
    cases hF : firstMaxByGPU rest with
    | none =>
      simp only [firstMaxByGPU, hF] at h
      simp at h
      exact ⟨[], rest, by simp [h], by simp⟩
    | some m =>
      simp only [firstMaxByGPU, hF] at h
      by_cases h2 : getAvailableGPUs x < getAvailableGPUs m
      · rw [if_pos h2] at h
        simp at h
        subst h
        obtain ⟨l₁, l₂, heq, hlt⟩ := ih hF
        refine ⟨x :: l₁, l₂, by simp [heq], ?_⟩
        intro y hy
        rcases List.mem_cons.mp hy with hy | hy
        · subst hy; exact h2
        · exact hlt y hy
      · rw [if_neg h2] at h
        simp at h
        exact ⟨[], rest, by simp [h], by simp⟩

theorem coLoop_eq_llLoop (c : Int) :
    ∀ (l : List Node), (∀ n ∈ l, c ≤ getAvailableGPUs n) →
      ∀ (best : Option Node) (mx : Int), coLoop best mx l = llLoop c best mx l := by
  intro l
  induction l with
  | nil => intro _ best mx; rfl
  | cons n rest ih =>
    intro hall best mx
    have hq : c ≤ getAvailableGPUs n := hall n (List.mem_cons_self n rest)
    have hrest : ∀ m ∈ rest, c ≤ getAvailableGPUs m :=
      fun m hm => hall m (List.mem_cons_of_mem n hm)
    by_cases hm : mx < getAvailableGPUs n
    · simp only [coLoop, llLoop, if_pos hm, if_pos (And.intro hq hm)]
      exact ih hrest (some n) (getAvailableGPUs n)
    · have hnot : ¬ (c ≤ getAvailableGPUs n ∧ mx < getAvailableGPUs n) := by tauto
      simp only [coLoop, llLoop, if_neg hm, if_neg hnot]
      exact ih hrest best mx

/-- The NotFound characterisation of the LeastLoaded selection, shared by the
LeastLoaded and CostOptimized claim proofs. -/
theorem chooseNodeLL_none_iff (nodes : List Node) (c : Int) (hc : 1 ≤ c) :
    chooseNodeLL nodes c = none ↔ ∀ n ∈ nodes, getAvailableGPUs n < c := by
  rw [chooseNodeLL_eq_spec nodes c hc]
  unfold chooseNodeLLSpec
  rw [firstMaxByGPU_eq_none_iff, List.filter_eq_nil_iff]
  constructor
  · intro h n hn
    have := h n hn
    simp [qualifies] at this
    omega
  · intro h n hn
    simp [qualifies]
    exact h n hn

/-- C6: the ChooseNode of LeastLoaded returns NotFound (none) exactly when no
node satisfies availableGPUs ≥ gpuCount (in particular on empty input); when
it returns a node, that node is in the input, qualifies, carries the largest
availableGPUs among qualifying nodes, and is the first qualifying node of
that value in input order; on nodes with 2, 4, 1 available GPUs and a 1-GPU
request it selects the 4-GPU node.  The hypothesis 1 ≤ gpuCount embeds the
CRD validation Minimum=1 on spec.gpuCount. -/
theorem leastLoaded_chooseNode_correct (nodes : List Node) (c : Int) (hc : 1 ≤ c) :
    (chooseNodeLL nodes c = none ↔ ∀ n ∈ nodes, getAvailableGPUs n < c)
    ∧ (∀ n, chooseNodeLL nodes c = some n →
        n ∈ nodes ∧ c ≤ getAvailableGPUs n
        ∧ (∀ m ∈ nodes, c ≤ getAvailableGPUs m → getAvailableGPUs m ≤ getAvailableGPUs n)
        ∧ ∃ l₁ l₂, nodes.filter (qualifies c) = l₁ ++ n :: l₂
            ∧ ∀ m ∈ l₁, getAvailableGPUs m < getAvailableGPUs n)
    ∧ chooseNodeLL [testNode "node1" 2, testNode "node2" 4, testNode "node3" 1] 1
        = some (testNode "node2" 4) := by
  refine ⟨chooseNodeLL_none_iff nodes c hc, ?_, by rfl⟩
  · intro n hn
    rw [chooseNodeLL_eq_spec nodes c hc] at hn
    unfold chooseNodeLLSpec at hn
    have hmem : n ∈ nodes.filter (qualifies c) := firstMaxByGPU_mem hn
    have hq : qualifies c n = true := List.of_mem_filter hmem
    have hqle : c ≤ getAvailableGPUs n := by simpa [qualifies] using hq
    refine ⟨List.mem_of_mem_filter hmem, hqle, ?_, firstMaxByGPU_first hn⟩
    intro m hm hmq
    have : m ∈ nodes.filter (qualifies c) :=
      List.mem_filter.mpr ⟨hm, by simp [qualifies, hmq]⟩
    exact firstMaxByGPU_le hn m this

theorem leastLoaded_chooseNode_correct_witness :
    chooseNodeLL [testNode "node1" 2, testNode "node2" 4, testNode "node3" 1] 1
      = some (testNode "node2" 4) :=
  (leastLoaded_chooseNode_correct
    [testNode "node1" 2, testNode "node2" 4, testNode "node3" 1] 1 (by norm_num)).2.2

/-- A labelled low-cost ready node for the CostOptimized example. -/
def cheapTestNode : Node :=
  ⟨"cheap-node", some 4, some 4, [("gpu-orchestrator/cheap-node", "true")],
    [⟨"Ready", "True"⟩]⟩

/-- An unlabelled (label value "false") ready node with more GPUs. -/
def expensiveTestNode : Node :=
  ⟨"expensive-node", some 8, some 8, [("gpu-orchestrator/cheap-node", "false")],
    [⟨"Ready", "True"⟩]⟩

/-- C7: the ChooseNode of CostOptimized equals the LeastLoaded selection applied to
the capacity-qualifying low-cost-labelled subset when that subset is
non-empty, and otherwise equals the ChooseNode of LeastLoaded on the full input;
it returns NotFound only when the LeastLoaded fallback on the full input also
does; a labelled 4-GPU node is preferred over an unlabelled 8-GPU node for a
2-GPU request.  The hypothesis 1 ≤ gpuCount embeds the CRD validation
Minimum=1 on spec.gpuCount. -/
theorem costOptimized_chooseNode_correct (nodes : List Node) (c : Int) (hc : 1 ≤ c) :
    (chooseNodeCO nodes c =
      (if (nodes.filter (fun n => isCheapNode n && qualifies c n)).isEmpty
       then chooseNodeLL nodes c
       else chooseNodeLL (nodes.filter (fun n => isCheapNode n && qualifies c n)) c))
    ∧ (chooseNodeCO nodes c = none → chooseNodeLL nodes c = none)
    ∧ chooseNodeCO [expensiveTestNode, cheapTestNode] 2 = some cheapTestNode := by
  have hcheapq : ∀ m ∈ nodes.filter (fun n => isCheapNode n && qualifies c n),
      c ≤ getAvailableGPUs m := by
    intro m hm
    have := List.of_mem_filter hm
    simp [qualifies] at this
    exact this.2
  have hmain : chooseNodeCO nodes c =
      (if (nodes.filter (fun n => isCheapNode n && qualifies c n)).isEmpty
       then chooseNodeLL nodes c
       else chooseNodeLL (nodes.filter (fun n => isCheapNode n && qualifies c n)) c) := by
    cases nodes with
    | nil => rfl
    | cons x rest =>
      have hne : ((x :: rest).isEmpty = true) = False := by simp
      simp only [chooseNodeCO, hne, if_false]
      set cheap := (x :: rest).filter (fun n => isCheapNode n && qualifies c n) with hch
      by_cases hE : cheap.isEmpty
      · simp [hE]
      · simp only [hE, if_false]
        rw [coLoop_eq_llLoop c cheap (by rw [hch] at hcheapq ⊢; exact hcheapq) none (-1)]
        unfold chooseNodeLL
        simp [hE]
  refine ⟨hmain, ?_, by rfl⟩
  intro hnone
  rw [hmain] at hnone
  by_cases hE : (nodes.filter (fun n => isCheapNode n && qualifies c n)).isEmpty
  · rwa [if_pos hE] at hnone
  · exfalso
    rw [if_neg hE] at hnone
    set cheap := nodes.filter (fun n => isCheapNode n && qualifies c n) with hch
    have hnil : cheap ≠ [] := by
      intro h; rw [h] at hE; simp at hE
    obtain ⟨y, hy⟩ := List.exists_mem_of_ne_nil cheap hnil
    have hqy : c ≤ getAvailableGPUs y := hcheapq y (hch ▸ hy)
    have := (chooseNodeLL_none_iff cheap c hc).mp hnone y hy
    omega

theorem costOptimized_chooseNode_correct_witness :
    chooseNodeCO [expensiveTestNode, cheapTestNode] 2 = some cheapTestNode :=
  (costOptimized_chooseNode_correct [expensiveTestNode, cheapTestNode] 2 (by norm_num)).2.2

/-! ## Backoff lemmas -/

theorem durTrunc_intCast (n : Int) : durTrunc ((n : ℚ)) = n := by
  unfold durTrunc
  rcases le_or_lt 0 n with h | h
  · rw [if_pos (by exact_mod_cast h), Int.floor_intCast]
  · rw [if_neg (not_le.mpr (by exact_mod_cast h)), Int.ceil_intCast]

theorem durTrunc_nonneg {q : ℚ} (h : 0 ≤ q) : 0 ≤ durTrunc q := by
  unfold durTrunc
  rw [if_pos h]
  exact Int.floor_nonneg.mpr h

theorem durTrunc_le {q : ℚ} (h : 0 ≤ q) : (durTrunc q : ℚ) ≤ q := by
  unfold durTrunc
  rw [if_pos h]
  exact Int.floor_le q

/-- Range of the jitter term durTrunc(randv · C · 0.1) for 1 ≤ C and
randv ∈ [0, 1). -/
theorem jitter_range (C : Int) (randv : ℚ) (hC : 1 ≤ C)
    (hr0 : 0 ≤ randv) (hr1 : randv < 1) :
    0 ≤ durTrunc (randv * (C : ℚ) * (1 / 10)) ∧
      ((durTrunc (randv * (C : ℚ) * (1 / 10)) : ℚ) < (C : ℚ) / 10) := by
  have hCq : (1 : ℚ) ≤ (C : ℚ) := by exact_mod_cast hC
  have hv0 : 0 ≤ randv * (C : ℚ) * (1 / 10) := by positivity
  refine ⟨durTrunc_nonneg hv0, ?_⟩
  have hle := durTrunc_le hv0
  have hlt : randv * (C : ℚ) * (1 / 10) < (C : ℚ) / 10 := by nlinarith
  linarith

/-- For a positive base and a non-negative attempt, NextBackoff lies in
[capped, capped · 1.1), where capped = min(base · 2^min(attempt,10), 5min). -/
theorem nextBackoff_range (base attempt : Int) (randv : ℚ)
    (hb : 0 < base) (ha : 0 ≤ attempt) (hr0 : 0 ≤ randv) (hr1 : randv < 1) :
    cappedExp base attempt ≤ nextBackoff base attempt randv ∧
      ((nextBackoff base attempt randv : ℚ) <
        (cappedExp base attempt : ℚ) * (11 / 10)) := by
  have hclamp : (if 10 < attempt then (10 : Int) else attempt) = min attempt 10 := by
    rcases le_or_lt attempt 10 with h | h
    · rw [if_neg (by omega), min_eq_left h]
    · rw [if_pos h, min_eq_right (by omega)]
  have ha0 : 0 ≤ min attempt 10 := le_min ha (by norm_num)
  have hpow : (2 : ℚ) ^ (min attempt 10) = ((2 ^ (min attempt 10).toNat : Int) : ℚ) := by
    have h2 := zpow_natCast (2 : ℚ) (min attempt 10).toNat
    rw [Int.toNat_of_nonneg ha0] at h2
    rw [h2]
    push_cast
    ring
  have hE : ((base : ℚ) * (2 : ℚ) ^ (min attempt 10))
      = ((base * 2 ^ (min attempt 10).toNat : Int) : ℚ) := by
    rw [hpow]; push_cast; ring
  set E : Int := base * 2 ^ (min attempt 10).toNat with hEdef
  have hEpos : 0 < E := mul_pos hb (pow_pos (by norm_num) _)
  have hE1 : 1 ≤ E := hEpos
  have hC1 : 1 ≤ min E 300000000000 := le_min hE1 (by norm_num)
  have hce : cappedExp base attempt = min E 300000000000 := rfl
  simp only [nextBackoff, hclamp, hE, durTrunc_intCast]
  by_cases hcap : (300000000000 : Int) < E
  · rw [if_pos hcap, durTrunc_intCast]
    have hcemin : cappedExp base attempt = 300000000000 := by
      rw [hce, min_eq_right (le_of_lt hcap)]
    obtain ⟨hj0, hj1⟩ := jitter_range 300000000000 randv (by norm_num) hr0 hr1
    rw [hcemin]
    constructor
    · omega
    · push_cast at hj1 ⊢
      linarith
  · rw [if_neg hcap, durTrunc_intCast]
    have hcemin : cappedExp base attempt = E := by
      rw [hce, min_eq_left (by omega)]
    obtain ⟨hj0, hj1⟩ := jitter_range E randv hE1 hr0 hr1
    rw [hcemin]
    constructor
    · omega
    · push_cast at hj1 ⊢
      linarith

/-- C8: NextBackoff(base, attempt) for base > 0 and attempt ≥ 0 equals the
capped exponential min(base · 2^min(attempt,10), 5min) plus a jitter in
[0, 0.10 · capped): the exponent is clamped at 10 before exponentiation and
the 5-minute cap precedes the jitter.  Consequently delay(30s,0) ∈ [30s,33s),
delay(30s,1) ∈ [60s,66s) and delay(30s,100) ≤ 5min + 10% (durations in
nanoseconds; randv is the rand.Float64() draw, so 0 ≤ randv < 1). -/
theorem nextBackoff_spec (base attempt : Int) (randv : ℚ)
    (hb : 0 < base) (ha : 0 ≤ attempt) (hr0 : 0 ≤ randv) (hr1 : randv < 1) :
    (cappedExp base attempt ≤ nextBackoff base attempt randv
      ∧ ((nextBackoff base attempt randv : ℚ) <
          (cappedExp base attempt : ℚ) * (11 / 10)))
    ∧ (30000000000 ≤ nextBackoff 30000000000 0 randv
        ∧ nextBackoff 30000000000 0 randv < 33000000000)
    ∧ (60000000000 ≤ nextBackoff 30000000000 1 randv
        ∧ nextBackoff 30000000000 1 randv < 66000000000)
    ∧ nextBackoff 30000000000 100 randv ≤ 330000000000 := by
  refine ⟨nextBackoff_range base attempt randv hb ha hr0 hr1, ?_, ?_, ?_⟩
  · obtain ⟨h1, h2⟩ := nextBackoff_range 30000000000 0 randv (by norm_num) le_rfl hr0 hr1
    have hce : cappedExp 30000000000 0 = 30000000000 := by decide
    rw [hce] at h1 h2
    refine ⟨h1, ?_⟩
    have : ((nextBackoff 30000000000 0 randv : ℚ)) < 33000000000 := by
      push_cast at h2 ⊢; linarith
    exact_mod_cast this
  · obtain ⟨h1, h2⟩ := nextBackoff_range 30000000000 1 randv (by norm_num) (by norm_num) hr0 hr1
    have hce : cappedExp 30000000000 1 = 60000000000 := by decide
    rw [hce] at h1 h2
    refine ⟨h1, ?_⟩
    have : ((nextBackoff 30000000000 1 randv : ℚ)) < 66000000000 := by
      push_cast at h2 ⊢; linarith
    exact_mod_cast this
  · obtain ⟨h1, h2⟩ := nextBackoff_range 30000000000 100 randv (by norm_num) (by norm_num) hr0 hr1
    have hce : cappedExp 30000000000 100 = 300000000000 := by decide
    rw [hce] at h2
    have : ((nextBackoff 30000000000 100 randv : ℚ)) < 330000000000 := by
      push_cast at h2 ⊢; linarith
    have hlt : nextBackoff 30000000000 100 randv < 330000000000 := by exact_mod_cast this
    omega

theorem nextBackoff_spec_witness :
    (30000000000 : Int) ≤ nextBackoff 30000000000 0 0
      ∧ nextBackoff 30000000000 0 0 < 33000000000 :=
  (nextBackoff_spec 30000000000 0 0 (by norm_num) (by norm_num) (by norm_num)
    (by norm_num)).2.1

/-- C9 counterexample: a negative attempt is NOT treated as 0 — the clamp in
NextBackoff only caps the attempt from above, so attempt −1 yields a negative
exponent (base/2): NextBackoff(30s,−1) = 15s ≠ 30s = NextBackoff(30s,0)
(zero jitter draw); and a negative base yields a negative duration. -/
theorem nextBackoff_negAttempt_counterexample :
    nextBackoff 30000000000 (-1) 0 = 15000000000
    ∧ nextBackoff 30000000000 0 0 = 30000000000
    ∧ nextBackoff 30000000000 (-1) 0 ≠ nextBackoff 30000000000 0 0
    ∧ nextBackoff (-30000000000) 0 (1 / 2) < 0 := by
  have hz : durTrunc 0 = 0 := by
    unfold durTrunc
    rw [if_pos le_rfl]
    exact Int.floor_zero
  have e1 : nextBackoff 30000000000 (-1) 0 = 15000000000 := by
    simp only [nextBackoff]
    have hcl : (if (10 : Int) < -1 then (10 : Int) else -1) = -1 := by norm_num
    have h1 : ((30000000000 : Int) : ℚ) * (2 : ℚ) ^ (-1 : Int)
        = ((15000000000 : Int) : ℚ) := by
      rw [zpow_neg, zpow_one]
      norm_num
    rw [hcl, h1, durTrunc_intCast, if_neg (by norm_num), durTrunc_intCast]
    have h2 : (0 : ℚ) * ((15000000000 : Int) : ℚ) * (1 / 10) = 0 := by ring
    rw [h2, hz]
    norm_num
  have e2 : nextBackoff 30000000000 0 0 = 30000000000 := by
    simp only [nextBackoff]
    have hcl : (if (10 : Int) < 0 then (10 : Int) else 0) = 0 := by norm_num
    have h1 : ((30000000000 : Int) : ℚ) * (2 : ℚ) ^ (0 : Int)
        = ((30000000000 : Int) : ℚ) := by
      rw [zpow_zero, mul_one]
    rw [hcl, h1, durTrunc_intCast, if_neg (by norm_num), durTrunc_intCast]
    have h2 : (0 : ℚ) * ((30000000000 : Int) : ℚ) * (1 / 10) = 0 := by ring
    rw [h2, hz]
    norm_num
  have e4 : nextBackoff (-30000000000) 0 (1 / 2) < 0 := by
    simp only [nextBackoff]
    have hcl : (if (10 : Int) < 0 then (10 : Int) else 0) = 0 := by norm_num
    have h1 : ((-30000000000 : Int) : ℚ) * (2 : ℚ) ^ (0 : Int)
        = ((-30000000000 : Int) : ℚ) := by
      rw [zpow_zero, mul_one]
    rw [hcl, h1, durTrunc_intCast, if_neg (by norm_num), durTrunc_intCast]
    have h2 : (1 / 2 : ℚ) * ((-30000000000 : Int) : ℚ) * (1 / 10)
        = ((-1500000000 : Int) : ℚ) := by
      push_cast
      norm_num
    rw [h2, durTrunc_intCast]
    norm_num
  exact ⟨e1, e2, by rw [e1, e2]; norm_num, e4⟩

/-- C9 amended: NextBackoff clamps the attempt only from above (at 10); a
negative attempt acts as a negative exponent, so the result differs from the
attempt-0 behaviour, but it is still non-negative whenever base ≥ 0, and a
zero base yields exactly 0 for every attempt and jitter draw.  (For a
negative base the result can be negative, as the counterexample shows.) -/
theorem nextBackoff_nonneg_amended (base attempt : Int) (randv : ℚ)
    (hb : 0 ≤ base) (hr0 : 0 ≤ randv) :
    0 ≤ nextBackoff base attempt randv
      ∧ nextBackoff 0 attempt randv = 0 := by
  constructor
  · simp only [nextBackoff]
    have hp : (0 : ℚ) < (2 : ℚ) ^ (if 10 < attempt then (10 : Int) else attempt) :=
      zpow_pos (by norm_num) _
    have he0 : (0 : ℚ) ≤ (base : ℚ) * (2 : ℚ) ^ (if 10 < attempt then (10 : Int) else attempt) := by
      have : (0 : ℚ) ≤ (base : ℚ) := by exact_mod_cast hb
      positivity
    by_cases hcap : (300000000000 : Int)
        < durTrunc ((base : ℚ) * (2 : ℚ) ^ (if 10 < attempt then (10 : Int) else attempt))
    · rw [if_pos hcap]
      have h1 : (0 : Int) ≤ durTrunc ((300000000000 : Int) : ℚ) := by
        rw [durTrunc_intCast]; norm_num
      have h2 : (0 : Int) ≤ durTrunc (randv * ((300000000000 : Int) : ℚ) * (1 / 10)) := by
        apply durTrunc_nonneg; positivity
      omega
    · rw [if_neg hcap]
      have h1 := durTrunc_nonneg he0
      have h2 : (0 : Int) ≤ durTrunc (randv
          * ((base : ℚ) * (2 : ℚ) ^ (if 10 < attempt then (10 : Int) else attempt))
          * (1 / 10)) := by
        apply durTrunc_nonneg
        positivity
      omega
  · simp only [nextBackoff]
    have hz : ((0 : Int) : ℚ) * (2 : ℚ) ^ (if 10 < attempt then (10 : Int) else attempt) = 0 := by
      push_cast; ring
    rw [hz]
    have h0 : durTrunc 0 = 0 := by
      unfold durTrunc; rw [if_pos le_rfl]; exact Int.floor_zero
    rw [h0]
    rw [if_neg (by norm_num)]
    rw [mul_zero, zero_mul, h0]
    norm_num

theorem nextBackoff_nonneg_amended_witness :
    0 ≤ nextBackoff 30000000000 (-1) 0 ∧ nextBackoff 0 (-1) 0 = 0 :=
  nextBackoff_nonneg_amended 30000000000 (-1) 0 (by norm_num) (by norm_num)

/-! ## GPUWorkload API types (gpuworkload_types.go) -/

/-- RetryPolicy: maxRetries and backoffSeconds (int32). -/
structure RetryPolicy where
  maxRetries : Int
  backoffSeconds : Int
deriving DecidableEq

/-- GPUWorkloadSpec: modelName, gpuCount, priority, schedulingStrategy,
optional retryPolicy. -/
structure GPUWorkloadSpec where
  modelName : String
  gpuCount : Int
  priority : String
  schedulingStrategy : String
  retryPolicy : Option RetryPolicy
deriving DecidableEq

/-- The GPUWorkloadPhase string constants; phaseUnset stands for the empty
string "" of a status whose phase was never written. -/
inductive Phase where
  | phaseUnset
  | pending
  | scheduling
  | scheduled
  | running
  | failed
  | succeeded
deriving DecidableEq

/-- GPUWorkloadStatus.  lastScheduleTime is an abstract timestamp. -/
structure GPUWorkloadStatus where
  phase : Phase
  assignedNode : String
  lastScheduleTime : Option Int
  retryCount : Int
  message : String
  jobName : String
deriving DecidableEq

/-- A GPUWorkload object: the object metadata the controller reads
(name, namespace, UID, deletionTimestamp, finalizers), its spec and status. -/
structure GPUWorkload where
  name : String
  nspace : String
  uid : String
  deletionTimestamp : Option Int
  finalizers : List String
  spec : GPUWorkloadSpec
  status : GPUWorkloadStatus
deriving DecidableEq

/-- The Job the controller creates, restricted to the fields the claims
mention: name, namespace, target node, the nvidia.com/gpu request and limit,
and the GPU_COUNT env value. -/
structure JobModel where
  name : String
  nspace : String
  nodeName : String
  gpuRequest : Int
  gpuLimit : Int
  gpuCountEnv : String
deriving DecidableEq

/-! ## Controller helpers (gpuworkload_controller.go) -/

/-- The finalizer the controller installs on GPUWorkloads. -/
def finalizerName : String := "gpu.warp.dev/finalizer"

/-- fmt.Sprintf("%d", n) for an integer. -/
def goFormatInt (n : Int) : String := toString n

/-- parseQuantity: the controller builds a resource.Quantity with
q.Set(int64(len(value))) — the quantity is the LENGTH of the formatted
string, not its numeric value. -/
def parseQuantity (value : String) : Int := value.length

/-- The derived Job name: fmt.Sprintf("%s-job-%s", gw.Name, gw.UID[:8]).
(The Go slice gw.UID[:8] panics when the UID is shorter than 8 bytes; UIDs
are 36-byte UUID strings, so the total take-8 is faithful on real inputs.) -/
def jobNameFor (gw : GPUWorkload) : String :=
  gw.name ++ "-job-" ++ (gw.uid.take 8)

/-- The Job spec createJobForWorkload builds for a workload on a node. -/
def buildJobSpec (gw : GPUWorkload) (node : Node) : JobModel :=
  { name := jobNameFor gw
    nspace := gw.nspace
    nodeName := node.name
    gpuRequest := parseQuantity (goFormatInt gw.spec.gpuCount)
    gpuLimit := parseQuantity (goFormatInt gw.spec.gpuCount)
    gpuCountEnv := goFormatInt gw.spec.gpuCount }

/-- isNodeReady: the status of the first NodeReady condition, false when the
condition list has no NodeReady entry. -/
def isNodeReady (n : Node) : Bool :=
  match n.conditions.find? (fun c => c.condType == "Ready") with
  | some c => c.status == "True"
  | none => false

/-- hasGPUs: a positive nvidia.com/gpu allocatable or capacity quantity, or
the presence of a nvidia.com/gpu label. -/
def hasGPUs (n : Node) : Bool :=
  (match n.allocatableGPU with
   | some q => decide (0 < q)
   | none => false) ||
  (match n.capacityGPU with
   | some q => decide (0 < q)
   | none => false) ||
  (lookupLabel n.labels "nvidia.com/gpu").isSome

/-- maxRetries as computed in Reconcile: 3 by default, the policy value when
a retryPolicy is present with MaxRetries > 0. -/
def maxRetriesOf (gw : GPUWorkload) : Int :=
  match gw.spec.retryPolicy with
  | some rp => if 0 < rp.maxRetries then rp.maxRetries else 3
  | none => 3

/-- Base backoff duration (ns) as computed in requeueWithBackoff: 30 s by
default, BackoffSeconds·1e9 when a retryPolicy has BackoffSeconds > 0. -/
def baseBackoffOf (gw : GPUWorkload) : Int :=
  match gw.spec.retryPolicy with
  | some rp => if 0 < rp.backoffSeconds then rp.backoffSeconds * 1000000000
               else 30000000000
  | none => 30000000000

/-- Factory + Strategy.Name(): the canonical strategy name ("random" and
"costOptimized" resolve to themselves, everything else — including the
empty and unknown names — to "leastLoaded", never an error). -/
def canonicalStrategyName (s : String) : String :=
  if s == "leastLoaded" then "leastLoaded"
  else if s == "random" then "random"
  else if s == "costOptimized" then "costOptimized"
  else "leastLoaded"

/-- strategy.ChooseNode dispatch on the canonical strategy name; ridx is the
random draw used by RandomStrategy. -/
def chooseByStrategy (s : String) (nodes : List Node) (gpuCount : Int)
    (ridx : Nat) : Option Node :=
  if s == "random" then chooseNodeRandom nodes gpuCount ridx
  else if s == "costOptimized" then chooseNodeCO nodes gpuCount
  else chooseNodeLL nodes gpuCount

/-! ## The cluster environment and the reconcile pass

The Kubernetes API server is modelled as explicit inputs: the node List
result, the set of existing Jobs (for the Get in createJobForWorkload and
handleDeletion), and success flags for Job Create/Delete.  Status/Update
writes are modelled as succeeding; the claims under verification concern the
decisions of the controller, not apiserver write failures.  randIdx and jitterRand
supply the random draws, now the wall clock. -/

structure ClusterEnv where
  nodesResult : Option (List Node)
  listErrText : String
  existingJobs : List JobModel
  createJobOk : Bool
  createErrText : String
  deleteJobOk : Bool
  randIdx : Nat
  jitterRand : ℚ
  now : Int

/-- The outcome of one Reconcile pass: the stored object afterwards, the
RequeueAfter duration (none when no requeue was requested), whether an error
was returned, the Job create and delete calls issued, and the events
emitted as (type, reason) pairs. -/
structure ReconcileResult where
  workload : GPUWorkload
  requeueAfter : Option Int
  retErr : Bool
  createdJobs : List JobModel
  deletedJobs : List String
  events : List (String × String)
deriving DecidableEq

/-- requeueWithBackoff: NextBackoff(base, retryCount) as RequeueAfter. -/
def requeueWithBackoff (env : ClusterEnv) (gw : GPUWorkload) : Option Int :=
  some (nextBackoff (baseBackoffOf gw) gw.status.retryCount env.jitterRand)

/-- handleDeletion: if the finalizer is present, delete the associated Job
when one is recorded and still exists (returning the error, finalizer kept,
when the delete fails), then remove the finalizer.  Without the finalizer the
pass is a no-op. -/
def handleDeletion (env : ClusterEnv) (gw : GPUWorkload) : ReconcileResult :=
  if finalizerName ∈ gw.finalizers then
    let jobFound :=
      if gw.status.jobName ≠ "" then
        env.existingJobs.find?
          (fun j => j.name == gw.status.jobName && j.nspace == gw.nspace)
      else none
    match jobFound with
    | some j =>
      if env.deleteJobOk then
        { workload := { gw with finalizers := gw.finalizers.filter (fun f => f ≠ finalizerName) }
          requeueAfter := none
          retErr := false
          createdJobs := []
          deletedJobs := [j.name]
          events := [] }
      else
        -- delete failed with a non-NotFound error: return it, keep finalizer
        { workload := gw
          requeueAfter := none
          retErr := true
          createdJobs := []
          deletedJobs := [j.name]
          events := [] }
    | none =>
      { workload := { gw with finalizers := gw.finalizers.filter (fun f => f ≠ finalizerName) }
        requeueAfter := none
        retErr := false
        createdJobs := []
        deletedJobs := []
        events := [] }
  else
    { workload := gw
      requeueAfter := none
      retErr := false
      createdJobs := []
      deletedJobs := []
      events := [] }

/-- Finalizer installation (Reconcile step: add finalizer when absent; the
Update is modelled as succeeding). -/
def installFinalizer (gw0 : GPUWorkload) : GPUWorkload :=
  if finalizerName ∈ gw0.finalizers then gw0
  else { gw0 with finalizers := gw0.finalizers ++ [finalizerName] }

/-- Initial-phase write (Reconcile step: when status.phase is still "", set
Pending and stamp lastScheduleTime). -/
def initPhase (env : ClusterEnv) (gw1 : GPUWorkload) : GPUWorkload :=
  if gw1.status.phase = Phase.phaseUnset then
    { gw1 with status := { gw1.status with
        phase := Phase.pending, lastScheduleTime := some env.now } }
  else gw1

/-- createJobForWorkload against a Job store: derive the idempotent Job name,
adopt an existing Job of that name when the Get finds one (no create call),
otherwise issue the create.  Returns the resulting Job (none when the create
fails) and the list of successful create calls issued. -/
def createJobForWorkload (jobs : List JobModel) (createOk : Bool)
    (gw : GPUWorkload) (node : Node) : Option JobModel × List JobModel :=
  let jname := jobNameFor gw
  match jobs.find? (fun j => j.name == jname && j.nspace == gw.nspace) with
  | some existing => (some existing, [])
  | none =>
    if createOk then (some (buildJobSpec gw node), [buildJobSpec gw node])
    else (none, [])

/-- The scheduling part of Reconcile, after the skip/deletion/finalizer/
initial-phase steps: the retry ceiling, node listing and filtering, strategy
selection (the Factory-error branch is dead code: Factory never errors),
Job creation and the success update. -/
def schedulePass (env : ClusterEnv) (gw : GPUWorkload) : ReconcileResult :=
  if maxRetriesOf gw ≤ gw.status.retryCount then
      let st := { gw.status with
        phase := Phase.failed
        message := "Failed to schedule after " ++ goFormatInt (maxRetriesOf gw)
          ++ " retries" }
      { workload := { gw with status := st }, requeueAfter := none
        retErr := false, createdJobs := [], deletedJobs := []
        events := [("Warning", "MaxRetriesExceeded")] }
    else
      match env.nodesResult with
      | none =>
        let st := { gw.status with
          phase := Phase.pending
          message := "Error listing nodes: " ++ env.listErrText }
        let gw' := { gw with status := st }
        { workload := gw', requeueAfter := requeueWithBackoff env gw'
          retErr := false, createdJobs := [], deletedJobs := [], events := [] }
      | some nodeList =>
        let gpuNodes := nodeList.filter (fun n => isNodeReady n && hasGPUs n)
        if gpuNodes.isEmpty then
          let st := { gw.status with
            phase := Phase.pending
            message := "No ready GPU nodes available" }
          let gw' := { gw with status := st }
          { workload := gw', requeueAfter := requeueWithBackoff env gw'
            retErr := false, createdJobs := [], deletedJobs := [], events := [] }
        else
          let strategyName := canonicalStrategyName gw.spec.schedulingStrategy
          match chooseByStrategy strategyName gpuNodes gw.spec.gpuCount env.randIdx with
          | none =>
            -- the only ChooseNode error reachable here (gpuNodes is non-empty)
            let st := { gw.status with
              phase := Phase.pending
              message := "no node has enough available GPUs for workload requiring "
                ++ goFormatInt gw.spec.gpuCount ++ " GPUs"
              retryCount := gw.status.retryCount + 1 }
            let gw' := { gw with status := st }
            { workload := gw', requeueAfter := requeueWithBackoff env gw'
              retErr := false, createdJobs := [], deletedJobs := [], events := [] }
          | some node =>
            match createJobForWorkload env.existingJobs env.createJobOk gw node with
            | (some job, created) =>
              let st := { gw.status with
                phase := Phase.scheduled
                assignedNode := node.name
                lastScheduleTime := some env.now
                jobName := job.name
                message := "Successfully scheduled on node " ++ node.name
                  ++ " using " ++ strategyName ++ " strategy" }
              { workload := { gw with status := st }, requeueAfter := none
                retErr := false, createdJobs := created, deletedJobs := []
                events := [("Normal", "Scheduled")] }
            | (none, _) =>
              let st := { gw.status with
                phase := Phase.pending
                message := "Failed to create job: " ++ env.createErrText
                retryCount := gw.status.retryCount + 1 }
              let gw' := { gw with status := st }
              { workload := gw', requeueAfter := requeueWithBackoff env gw'
                retErr := false, createdJobs := [], deletedJobs := [], events := [] }

/-- The prepared workload on the scheduling path: finalizer installed, phase
initialised. -/
def prepGW (env : ClusterEnv) (gw : GPUWorkload) : GPUWorkload :=
  initPhase env (installFinalizer gw)

/-- One pass of GPUWorkloadReconciler.Reconcile on a successfully fetched
GPUWorkload.  Mirrors the branch order of the source: (1) the
Scheduled/Running/Succeeded skip, (2) deletion handling, (3) finalizer
installation, (4) phase initialisation, (5)-(9) the scheduling pass. -/
def reconcile (env : ClusterEnv) (gw0 : GPUWorkload) : ReconcileResult :=
  if gw0.status.phase = Phase.scheduled ∨ gw0.status.phase = Phase.running
      ∨ gw0.status.phase = Phase.succeeded then
    { workload := gw0, requeueAfter := none, retErr := false
      createdJobs := [], deletedJobs := [], events := [] }
  else if gw0.deletionTimestamp ≠ none then
    handleDeletion env gw0
  else
    schedulePass env (prepGW env gw0)

/-! ## Structural lemmas about the pass components -/

theorem installFinalizer_status (gw : GPUWorkload) :
    (installFinalizer gw).status = gw.status := by
  unfold installFinalizer; split <;> rfl

theorem installFinalizer_spec (gw : GPUWorkload) :
    (installFinalizer gw).spec = gw.spec := by
  unfold installFinalizer; split <;> rfl

theorem installFinalizer_name (gw : GPUWorkload) :
    (installFinalizer gw).name = gw.name := by
  unfold installFinalizer; split <;> rfl

theorem installFinalizer_uid (gw : GPUWorkload) :
    (installFinalizer gw).uid = gw.uid := by
  unfold installFinalizer; split <;> rfl

theorem installFinalizer_nspace (gw : GPUWorkload) :
    (installFinalizer gw).nspace = gw.nspace := by
  unfold installFinalizer; split <;> rfl

theorem initPhase_spec (env : ClusterEnv) (gw : GPUWorkload) :
    (initPhase env gw).spec = gw.spec := by
  unfold initPhase; split <;> rfl

theorem initPhase_name (env : ClusterEnv) (gw : GPUWorkload) :
    (initPhase env gw).name = gw.name := by
  unfold initPhase; split <;> rfl

theorem initPhase_uid (env : ClusterEnv) (gw : GPUWorkload) :
    (initPhase env gw).uid = gw.uid := by
  unfold initPhase; split <;> rfl

theorem initPhase_nspace (env : ClusterEnv) (gw : GPUWorkload) :
    (initPhase env gw).nspace = gw.nspace := by
  unfold initPhase; split <;> rfl

theorem initPhase_retryCount (env : ClusterEnv) (gw : GPUWorkload) :
    (initPhase env gw).status.retryCount = gw.status.retryCount := by
  unfold initPhase; split <;> rfl

theorem handleDeletion_status (env : ClusterEnv) (gw : GPUWorkload) :
    (handleDeletion env gw).workload.status = gw.status := by
  simp only [handleDeletion]
  repeat' split
  all_goals rfl

theorem handleDeletion_createdJobs (env : ClusterEnv) (gw : GPUWorkload) :
    (handleDeletion env gw).createdJobs = [] := by
  simp only [handleDeletion]
  repeat' split
  all_goals rfl

theorem maxRetriesOf_eq_of_spec {gw gw' : GPUWorkload} (h : gw.spec = gw'.spec) :
    maxRetriesOf gw = maxRetriesOf gw' := by
  unfold maxRetriesOf; rw [h]

theorem baseBackoffOf_eq_of_spec {gw gw' : GPUWorkload} (h : gw.spec = gw'.spec) :
    baseBackoffOf gw = baseBackoffOf gw' := by
  unfold baseBackoffOf; rw [h]

theorem prepGW_spec (env : ClusterEnv) (gw : GPUWorkload) :
    (prepGW env gw).spec = gw.spec := by
  unfold prepGW; rw [initPhase_spec, installFinalizer_spec]

theorem prepGW_retryCount (env : ClusterEnv) (gw : GPUWorkload) :
    (prepGW env gw).status.retryCount = gw.status.retryCount := by
  unfold prepGW; rw [initPhase_retryCount, installFinalizer_status]

theorem prepGW_maxRetries (env : ClusterEnv) (gw : GPUWorkload) :
    maxRetriesOf (prepGW env gw) = maxRetriesOf gw :=
  maxRetriesOf_eq_of_spec (prepGW_spec env gw)

theorem prepGW_baseBackoff (env : ClusterEnv) (gw : GPUWorkload) :
    baseBackoffOf (prepGW env gw) = baseBackoffOf gw :=
  baseBackoffOf_eq_of_spec (prepGW_spec env gw)

theorem prepGW_name (env : ClusterEnv) (gw : GPUWorkload) :
    (prepGW env gw).name = gw.name := by
  unfold prepGW; rw [initPhase_name, installFinalizer_name]

theorem prepGW_uid (env : ClusterEnv) (gw : GPUWorkload) :
    (prepGW env gw).uid = gw.uid := by
  unfold prepGW; rw [initPhase_uid, installFinalizer_uid]

theorem prepGW_nspace (env : ClusterEnv) (gw : GPUWorkload) :
    (prepGW env gw).nspace = gw.nspace := by
  unfold prepGW; rw [initPhase_nspace, installFinalizer_nspace]

theorem prepGW_jobNameFor (env : ClusterEnv) (gw : GPUWorkload) :
    jobNameFor (prepGW env gw) = jobNameFor gw := by
  unfold jobNameFor
  rw [prepGW_name, prepGW_uid]

theorem baseBackoffOf_setStatus (gw : GPUWorkload) (st : GPUWorkloadStatus) :
    baseBackoffOf { gw with status := st } = baseBackoffOf gw := rfl

theorem reconcile_to_schedulePass (env : ClusterEnv) (gw : GPUWorkload)
    (hskip : ¬(gw.status.phase = Phase.scheduled ∨ gw.status.phase = Phase.running
      ∨ gw.status.phase = Phase.succeeded))
    (hdel : gw.deletionTimestamp = none) :
    reconcile env gw = schedulePass env (prepGW env gw) := by
  unfold reconcile
  rw [if_neg hskip, if_neg (by simp [hdel])]

/-- Each branch of the scheduling pass either leaves retryCount unchanged or
increments it once, and increments only happen strictly below the ceiling. -/
theorem schedulePass_retryCount (env : ClusterEnv) (gw : GPUWorkload) :
    (schedulePass env gw).workload.status.retryCount = gw.status.retryCount
    ∨ ((schedulePass env gw).workload.status.retryCount = gw.status.retryCount + 1
        ∧ gw.status.retryCount < maxRetriesOf gw) := by
  simp only [schedulePass]
  split
  · exact Or.inl rfl
  · rename_i hmax
    split
    · exact Or.inl rfl
    · split
      · exact Or.inl rfl
      · split
        · exact Or.inr ⟨rfl, by omega⟩
        · split
          · exact Or.inl rfl
          · exact Or.inr ⟨rfl, by omega⟩

/-! ## Concrete sample objects for witnesses and counterexamples -/

/-- A benign environment: three ready GPU nodes, no pre-existing Jobs, all
API calls succeed, zero random draws. -/
def sampleEnv : ClusterEnv :=
  { nodesResult := some [testNode "node1" 2, testNode "node2" 4, testNode "node3" 1]
    listErrText := ""
    existingJobs := []
    createJobOk := true
    createErrText := ""
    deleteJobOk := true
    randIdx := 0
    jitterRand := 0
    now := 7 }

def sampleSpec : GPUWorkloadSpec :=
  { modelName := "llama2"
    gpuCount := 2
    priority := "normal"
    schedulingStrategy := "leastLoaded"
    retryPolicy := none }

/-- A workload already in phase Scheduled with a live placement. -/
def scheduledWorkload : GPUWorkload :=
  { name := "wl"
    nspace := "default"
    uid := "0123abcd-4567-89ef"
    deletionTimestamp := none
    finalizers := [finalizerName]
    spec := sampleSpec
    status := { phase := Phase.scheduled, assignedNode := "node2"
                lastScheduleTime := some 1, retryCount := 0
                message := "ok", jobName := "wl-job-0123abcd" } }

/-- C1: for a GPUWorkload in phase Scheduled, Running, or Succeeded, a
Reconcile pass is a no-op: the stored object (status included) is returned
unchanged, no Job is created or deleted, no event is emitted, no requeue and
no error is returned. -/
theorem reconcile_skip_noop (env : ClusterEnv) (gw : GPUWorkload)
    (h : gw.status.phase = Phase.scheduled ∨ gw.status.phase = Phase.running
      ∨ gw.status.phase = Phase.succeeded) :
    reconcile env gw =
      { workload := gw, requeueAfter := none, retErr := false
        createdJobs := [], deletedJobs := [], events := [] } := by
  unfold reconcile
  rw [if_pos h]

theorem reconcile_skip_noop_witness :
    reconcile sampleEnv scheduledWorkload =
      { workload := scheduledWorkload, requeueAfter := none, retErr := false
        createdJobs := [], deletedJobs := [], events := [] } :=
  reconcile_skip_noop sampleEnv scheduledWorkload (Or.inl rfl)

/-- The Job backing the placement of scheduledWorkload. -/
def liveJob : JobModel :=
  { name := "wl-job-0123abcd", nspace := "default", nodeName := "node2"
    gpuRequest := 1, gpuLimit := 1, gpuCountEnv := "2" }

/-- scheduledWorkload carrying a deletion marker. -/
def deletedScheduledWorkload : GPUWorkload :=
  { scheduledWorkload with deletionTimestamp := some 100 }

/-- sampleEnv with the live Job present in the cluster. -/
def envWithLiveJob : ClusterEnv :=
  { sampleEnv with existingJobs := [liveJob] }

/-- envWithLiveJob where Job deletion fails. -/
def envDeleteFails : ClusterEnv :=
  { envWithLiveJob with deleteJobOk := false }

/-- C2 (code bug evidence): for a Scheduled workload carrying a deletion
marker, with its placement Job live, Reconcile is a pure no-op — the
Scheduled/Running/Succeeded skip fires BEFORE the deletion check, so no
release (Job delete) call is issued and the finalizer is never removed;
the cleanup path handleDeletion, were it reached, would issue the release
and remove the finalizer only on success, keeping the finalizer (and
returning the error) when the release fails. -/
theorem reconcile_deletion_unreachable_when_scheduled :
    (reconcile envWithLiveJob deletedScheduledWorkload).deletedJobs = []
    ∧ (reconcile envWithLiveJob deletedScheduledWorkload).workload
        = deletedScheduledWorkload
    ∧ finalizerName
        ∈ (reconcile envWithLiveJob deletedScheduledWorkload).workload.finalizers
    ∧ (handleDeletion envWithLiveJob deletedScheduledWorkload).deletedJobs
        = ["wl-job-0123abcd"]
    ∧ (handleDeletion envWithLiveJob deletedScheduledWorkload).workload.finalizers = []
    ∧ (handleDeletion envDeleteFails deletedScheduledWorkload).workload.finalizers
        = [finalizerName]
    ∧ (handleDeletion envDeleteFails deletedScheduledWorkload).retErr = true := by
  refine ⟨by rfl, by rfl, ?_, by rfl, by rfl, by rfl, by rfl⟩
  have h : (reconcile envWithLiveJob deletedScheduledWorkload).workload
      = deletedScheduledWorkload := by rfl
  rw [h]
  simp [deletedScheduledWorkload, scheduledWorkload]

/-- C5: the placement step is idempotent — the derived Job name is the
deterministic function name ++ "-job-" ++ uid-prefix of the request identity;
a first run (no existing Job) issues exactly one create call, and a second
run against the resulting store adopts the existing Job without a create
call, yielding the same Job both times. -/
theorem createJob_idempotent (jobs : List JobModel) (gw : GPUWorkload) (node : Node)
    (h : jobs.find? (fun j => j.name == jobNameFor gw && j.nspace == gw.nspace) = none) :
    createJobForWorkload jobs true gw node
        = (some (buildJobSpec gw node), [buildJobSpec gw node])
    ∧ createJobForWorkload (jobs ++ [buildJobSpec gw node]) true gw node
        = (some (buildJobSpec gw node), [])
    ∧ (buildJobSpec gw node).name = jobNameFor gw
    ∧ jobNameFor gw = gw.name ++ "-job-" ++ gw.uid.take 8 := by
  have hfind : ∀ (l l' : List JobModel) (p : JobModel → Bool), l.find? p = none →
      (l ++ l').find? p = l'.find? p := by
    intro l l' p hl
    induction l with
    | nil => simp
    | cons x xs ih =>
      cases hx : p x with
      | true =>
        rw [List.find?_cons_of_pos _ hx] at hl
        exact absurd hl (by simp)
      | false =>
        rw [List.find?_cons_of_neg _ (by simp [hx])] at hl
        rw [List.cons_append, List.find?_cons_of_neg _ (by simp [hx])]
        exact ih hl
  refine ⟨?_, ?_, rfl, rfl⟩
  · simp only [createJobForWorkload]
    rw [h]
    simp
  · simp only [createJobForWorkload]
    rw [hfind _ _ _ h]
    have hp : ((buildJobSpec gw node).name == jobNameFor gw
        && (buildJobSpec gw node).nspace == gw.nspace) = true := by
      simp [buildJobSpec]
    simp only [List.find?_cons, hp]

theorem createJob_idempotent_witness :
    createJobForWorkload [] true scheduledWorkload (testNode "node2" 4)
        = (some (buildJobSpec scheduledWorkload (testNode "node2" 4)),
            [buildJobSpec scheduledWorkload (testNode "node2" 4)])
    ∧ createJobForWorkload [buildJobSpec scheduledWorkload (testNode "node2" 4)]
        true scheduledWorkload (testNode "node2" 4)
        = (some (buildJobSpec scheduledWorkload (testNode "node2" 4)), []) := by
  have h := createJob_idempotent [] scheduledWorkload (testNode "node2" 4) rfl
  exact ⟨h.1, by simpa using h.2.1⟩

/-- C10: the Job built by createJobForWorkload sets the nvidia.com/gpu
request and limit to the LENGTH of the decimal rendering of gpuCount (the
number of its decimal digits), not to gpuCount itself; hence every valid
gpuCount in 1..8 yields a Job requesting exactly 1 GPU, differing from
gpuCount whenever gpuCount ≥ 2. -/
theorem job_gpu_quantity_is_digit_count (gw : GPUWorkload) (node : Node) :
    (buildJobSpec gw node).gpuRequest = (goFormatInt gw.spec.gpuCount).length
    ∧ (buildJobSpec gw node).gpuLimit = (goFormatInt gw.spec.gpuCount).length
    ∧ (1 ≤ gw.spec.gpuCount → gw.spec.gpuCount ≤ 8 →
        (buildJobSpec gw node).gpuRequest = 1
        ∧ (buildJobSpec gw node).gpuLimit = 1
        ∧ (2 ≤ gw.spec.gpuCount → (buildJobSpec gw node).gpuRequest ≠ gw.spec.gpuCount)) := by
  refine ⟨rfl, rfl, ?_⟩
  intro h1 h8
  have hlen : (goFormatInt gw.spec.gpuCount).length = 1 := by
    set g := gw.spec.gpuCount with hg
    interval_cases g <;> rfl
  have hreq : (buildJobSpec gw node).gpuRequest
      = (goFormatInt gw.spec.gpuCount).length := rfl
  have hlim : (buildJobSpec gw node).gpuLimit
      = (goFormatInt gw.spec.gpuCount).length := rfl
  refine ⟨by rw [hreq, hlen]; norm_num, by rw [hlim, hlen]; norm_num, ?_⟩
  intro h2
  rw [hreq, hlen]
  omega

/-- A workload that has exhausted its (default 3) retry budget. -/
def maxedWorkload : GPUWorkload :=
  { name := "wl3"
    nspace := "default"
    uid := "deadbeef-1111"
    deletionTimestamp := none
    finalizers := [finalizerName]
    spec := sampleSpec
    status := { phase := Phase.pending, assignedNode := ""
                lastScheduleTime := some 0, retryCount := 3
                message := "", jobName := "" } }

/-- C3 counterexample: at the retry ceiling the pass writes the message
"Failed to schedule after 3 retries", not "exceeded 3 retries" as the claim
states. -/
theorem retry_ceiling_message_counterexample :
    (reconcile sampleEnv maxedWorkload).workload.status.message
        = "Failed to schedule after 3 retries"
    ∧ (reconcile sampleEnv maxedWorkload).workload.status.message
        ≠ "exceeded 3 retries"
    ∧ (reconcile sampleEnv maxedWorkload).workload.status.phase = Phase.failed := by
  refine ⟨by rfl, by decide, by rfl⟩

/-- C3 amended: retryCount never exceeds maxRetries (each pass preserves the
bound, incrementing only strictly below the ceiling); once retryCount reaches
maxRetries a pass sets phase Failed with message
"Failed to schedule after N retries", emits the MaxRetriesExceeded warning
event, requests no requeue, creates no Job and leaves retryCount unchanged;
and a Failed workload at the ceiling stays Failed on every subsequent pass
(with or without a deletion marker). -/
theorem retry_ceiling_amended (env : ClusterEnv) (gw : GPUWorkload) :
    (gw.status.retryCount ≤ maxRetriesOf gw →
      (reconcile env gw).workload.status.retryCount ≤ maxRetriesOf gw)
    ∧ (gw.deletionTimestamp = none →
        ¬(gw.status.phase = Phase.scheduled ∨ gw.status.phase = Phase.running
            ∨ gw.status.phase = Phase.succeeded) →
        maxRetriesOf gw ≤ gw.status.retryCount →
          (reconcile env gw).workload.status.phase = Phase.failed
          ∧ (reconcile env gw).workload.status.message
              = "Failed to schedule after " ++ goFormatInt (maxRetriesOf gw) ++ " retries"
          ∧ (reconcile env gw).events = [("Warning", "MaxRetriesExceeded")]
          ∧ (reconcile env gw).requeueAfter = none
          ∧ (reconcile env gw).createdJobs = []
          ∧ (reconcile env gw).workload.status.retryCount = gw.status.retryCount)
    ∧ (gw.status.phase = Phase.failed →
        maxRetriesOf gw ≤ gw.status.retryCount →
          (reconcile env gw).workload.status.phase = Phase.failed
          ∧ (reconcile env gw).workload.status.retryCount = gw.status.retryCount) := by
  have hB : gw.deletionTimestamp = none →
      ¬(gw.status.phase = Phase.scheduled ∨ gw.status.phase = Phase.running
          ∨ gw.status.phase = Phase.succeeded) →
      maxRetriesOf gw ≤ gw.status.retryCount →
        (reconcile env gw).workload.status.phase = Phase.failed
        ∧ (reconcile env gw).workload.status.message
            = "Failed to schedule after " ++ goFormatInt (maxRetriesOf gw) ++ " retries"
        ∧ (reconcile env gw).events = [("Warning", "MaxRetriesExceeded")]
        ∧ (reconcile env gw).requeueAfter = none
        ∧ (reconcile env gw).createdJobs = []
        ∧ (reconcile env gw).workload.status.retryCount = gw.status.retryCount := by
    intro hdel hskip hge
    rw [reconcile_to_schedulePass env gw hskip hdel]
    simp only [schedulePass]
    rw [if_pos (by rw [prepGW_maxRetries, prepGW_retryCount]; exact hge)]
    refine ⟨rfl, ?_, rfl, rfl, rfl, ?_⟩
    · show "Failed to schedule after " ++ goFormatInt (maxRetriesOf (prepGW env gw))
          ++ " retries"
        = "Failed to schedule after " ++ goFormatInt (maxRetriesOf gw) ++ " retries"
      rw [prepGW_maxRetries]
    · show (prepGW env gw).status.retryCount = gw.status.retryCount
      exact prepGW_retryCount env gw
  refine ⟨?_, hB, ?_⟩
  · intro hle
    by_cases hskip : gw.status.phase = Phase.scheduled ∨ gw.status.phase = Phase.running
        ∨ gw.status.phase = Phase.succeeded
    · unfold reconcile
      rw [if_pos hskip]
      exact hle
    · by_cases hdel : gw.deletionTimestamp = none
      · rw [reconcile_to_schedulePass env gw hskip hdel]
        rcases schedulePass_retryCount env (prepGW env gw) with h | ⟨h, hlt⟩
        · rw [h, prepGW_retryCount]
          exact hle
        · rw [h, prepGW_retryCount]
          rw [prepGW_retryCount, prepGW_maxRetries] at hlt
          omega
      · have hdel' : gw.deletionTimestamp ≠ none := hdel
        unfold reconcile
        rw [if_neg hskip, if_pos (by simp [hdel'])]
        rw [show (handleDeletion env gw).workload.status.retryCount
            = gw.status.retryCount from by rw [handleDeletion_status]]
        exact hle
  · intro hph hge
    have hskip : ¬(gw.status.phase = Phase.scheduled ∨ gw.status.phase = Phase.running
        ∨ gw.status.phase = Phase.succeeded) := by
      rw [hph]; simp
    by_cases hdel : gw.deletionTimestamp = none
    · have h := hB hdel hskip hge
      exact ⟨h.1, h.2.2.2.2.2⟩
    · have hdel' : gw.deletionTimestamp ≠ none := hdel
      unfold reconcile
      rw [if_neg hskip, if_pos (by simp [hdel'])]
      rw [show (handleDeletion env gw).workload.status = gw.status from
        handleDeletion_status env gw]
      exact ⟨hph, rfl⟩

theorem retry_ceiling_amended_witness :
    (reconcile sampleEnv maxedWorkload).workload.status.phase = Phase.failed
    ∧ (reconcile sampleEnv maxedWorkload).workload.status.retryCount
        = maxedWorkload.status.retryCount := by
  have h := (retry_ceiling_amended sampleEnv maxedWorkload).2.1 rfl (by decide) (by decide)
  exact ⟨h.1, h.2.2.2.2.2⟩

/-- sampleEnv with a failing node List call. -/
def listFailEnv : ClusterEnv :=
  { sampleEnv with nodesResult := none, listErrText := "boom" }

/-- A fresh Pending workload with no retries yet. -/
def pendingWorkload : GPUWorkload :=
  { name := "wl4"
    nspace := "default"
    uid := "cafebabe-2222"
    deletionTimestamp := none
    finalizers := [finalizerName]
    spec := sampleSpec
    status := { phase := Phase.pending, assignedNode := ""
                lastScheduleTime := some 0, retryCount := 0
                message := "", jobName := "" } }

/-- C4 counterexample: an inventory-list (node List) failure leaves
retryCount UNCHANGED — the pass does not increment it, contrary to the claim
that every transient failure is counted toward retryCount — while still
leaving phase Pending and scheduling a backoff requeue. -/
theorem transient_increment_counterexample :
    (reconcile listFailEnv pendingWorkload).workload.status.retryCount = 0
    ∧ pendingWorkload.status.retryCount = 0
    ∧ (reconcile listFailEnv pendingWorkload).workload.status.phase = Phase.pending
    ∧ (reconcile listFailEnv pendingWorkload).requeueAfter
        = some (nextBackoff 30000000000 0 0) := by
  refine ⟨by rfl, by rfl, by rfl, by rfl⟩

/-- C4 amended: on the scheduling path (no deletion marker, phase not in the
skip set, retryCount below the ceiling) all four transient failures leave
phase Pending and schedule a backoff-delayed requeue, but only the
node-selection failure and the placement-create failure increment retryCount;
the inventory-list failure and the no-ready-GPU-nodes case leave retryCount
unchanged (their backoff is computed from the unchanged count). -/
theorem transient_failures_amended (env : ClusterEnv) (gw : GPUWorkload)
    (hdel : gw.deletionTimestamp = none)
    (hskip : ¬(gw.status.phase = Phase.scheduled ∨ gw.status.phase = Phase.running
        ∨ gw.status.phase = Phase.succeeded))
    (hlt : gw.status.retryCount < maxRetriesOf gw) :
    (env.nodesResult = none →
        (reconcile env gw).workload.status.phase = Phase.pending
        ∧ (reconcile env gw).workload.status.retryCount = gw.status.retryCount
        ∧ (reconcile env gw).requeueAfter
            = some (nextBackoff (baseBackoffOf gw) gw.status.retryCount env.jitterRand)
        ∧ (reconcile env gw).createdJobs = [])
    ∧ (∀ ns, env.nodesResult = some ns →
        (ns.filter (fun n => isNodeReady n && hasGPUs n)).isEmpty = true →
        (reconcile env gw).workload.status.phase = Phase.pending
        ∧ (reconcile env gw).workload.status.retryCount = gw.status.retryCount
        ∧ (reconcile env gw).requeueAfter
            = some (nextBackoff (baseBackoffOf gw) gw.status.retryCount env.jitterRand)
        ∧ (reconcile env gw).createdJobs = []
        ∧ (reconcile env gw).workload.status.message = "No ready GPU nodes available")
    ∧ (∀ ns, env.nodesResult = some ns →
        (ns.filter (fun n => isNodeReady n && hasGPUs n)).isEmpty = false →
        chooseByStrategy (canonicalStrategyName gw.spec.schedulingStrategy)
          (ns.filter (fun n => isNodeReady n && hasGPUs n)) gw.spec.gpuCount
          env.randIdx = none →
        (reconcile env gw).workload.status.phase = Phase.pending
        ∧ (reconcile env gw).workload.status.retryCount = gw.status.retryCount + 1
        ∧ (reconcile env gw).requeueAfter
            = some (nextBackoff (baseBackoffOf gw) (gw.status.retryCount + 1) env.jitterRand)
        ∧ (reconcile env gw).createdJobs = [])
    ∧ (∀ ns node, env.nodesResult = some ns →
        (ns.filter (fun n => isNodeReady n && hasGPUs n)).isEmpty = false →
        chooseByStrategy (canonicalStrategyName gw.spec.schedulingStrategy)
          (ns.filter (fun n => isNodeReady n && hasGPUs n)) gw.spec.gpuCount
          env.randIdx = some node →
        env.existingJobs.find?
          (fun j => j.name == jobNameFor gw && j.nspace == gw.nspace) = none →
        env.createJobOk = false →
        (reconcile env gw).workload.status.phase = Phase.pending
        ∧ (reconcile env gw).workload.status.retryCount = gw.status.retryCount + 1
        ∧ (reconcile env gw).requeueAfter
            = some (nextBackoff (baseBackoffOf gw) (gw.status.retryCount + 1) env.jitterRand)
        ∧ (reconcile env gw).createdJobs = []) := by
  have hentry : reconcile env gw = schedulePass env (prepGW env gw) :=
    reconcile_to_schedulePass env gw hskip hdel
  have hmaxne : ¬(maxRetriesOf (prepGW env gw) ≤ (prepGW env gw).status.retryCount) := by
    rw [prepGW_maxRetries, prepGW_retryCount]
    omega
  refine ⟨?_, ?_, ?_, ?_⟩
  · intro h
    rw [hentry]
    simp only [schedulePass]
    rw [if_neg hmaxne, h]
    refine ⟨rfl, prepGW_retryCount env gw, ?_, rfl⟩
    simp only [requeueWithBackoff]
    rw [baseBackoffOf_setStatus, prepGW_baseBackoff]
    show some (nextBackoff (baseBackoffOf gw) (prepGW env gw).status.retryCount
      env.jitterRand) = _
    rw [prepGW_retryCount]
  · intro ns h hempty
    rw [hentry]
    simp only [schedulePass]
    rw [if_neg hmaxne]
    split
    · rename_i heq
      rw [h] at heq
      simp at heq
    · rename_i nodeList heq
      rw [h] at heq
      injection heq with heq'
      subst heq'
      rw [if_pos hempty]
      refine ⟨rfl, prepGW_retryCount env gw, ?_, rfl, rfl⟩
      simp only [requeueWithBackoff]
      rw [baseBackoffOf_setStatus, prepGW_baseBackoff]
      show some (nextBackoff (baseBackoffOf gw) (prepGW env gw).status.retryCount
        env.jitterRand) = _
      rw [prepGW_retryCount]
  · intro ns h hnonempty hchoose
    rw [hentry]
    simp only [schedulePass]
    rw [if_neg hmaxne]
    split
    · rename_i heq
      rw [h] at heq
      simp at heq
    · rename_i nodeList heq
      rw [h] at heq
      injection heq with heq'
      subst heq'
      rw [if_neg (by rw [hnonempty]; simp)]
      rw [prepGW_spec, hchoose]
      refine ⟨rfl, ?_, ?_, rfl⟩
      · show (prepGW env gw).status.retryCount + 1 = gw.status.retryCount + 1
        rw [prepGW_retryCount]
      · simp only [requeueWithBackoff]
        show some (nextBackoff (baseBackoffOf gw)
          ((prepGW env gw).status.retryCount + 1) env.jitterRand) = _
        rw [prepGW_retryCount]
  · intro ns node h hnonempty hchoose hfind hcreate
    rw [hentry]
    simp only [schedulePass]
    rw [if_neg hmaxne]
    split
    · rename_i heq
      rw [h] at heq
      simp at heq
    · rename_i nodeList heq
      rw [h] at heq
      injection heq with heq'
      subst heq'
      rw [if_neg (by rw [hnonempty]; simp)]
      rw [prepGW_spec]
      have hcj : createJobForWorkload env.existingJobs env.createJobOk
          (prepGW env gw) node = (none, []) := by
        simp only [createJobForWorkload, prepGW_jobNameFor, prepGW_nspace]
        rw [hfind, hcreate]
        simp
      split
      · rename_i heq2
        rw [hchoose] at heq2
        simp at heq2
      · rename_i node' heq2
        rw [hchoose] at heq2
        injection heq2 with hh
        subst hh
        rw [hcj]
        refine ⟨rfl, ?_, ?_, rfl⟩
        · show (prepGW env gw).status.retryCount + 1 = gw.status.retryCount + 1
          rw [prepGW_retryCount]
        · simp only [requeueWithBackoff]
          show some (nextBackoff (baseBackoffOf gw)
            ((prepGW env gw).status.retryCount + 1) env.jitterRand) = _
          rw [prepGW_retryCount]

theorem transient_failures_amended_witness :
    (reconcile listFailEnv pendingWorkload).workload.status.phase = Phase.pending
    ∧ (reconcile listFailEnv pendingWorkload).workload.status.retryCount
        = pendingWorkload.status.retryCount := by
  have h := (transient_failures_amended listFailEnv pendingWorkload rfl (by decide)
    (by decide)).1 rfl
  exact ⟨h.1, h.2.1⟩

theorem job_gpu_quantity_is_digit_count_witness :
    1 ≤ sampleSpec.gpuCount
    ∧ (buildJobSpec scheduledWorkload (testNode "node2" 4)).gpuRequest = 1
    ∧ (buildJobSpec scheduledWorkload (testNode "node2" 4)).gpuRequest
        ≠ scheduledWorkload.spec.gpuCount := by
  have h := job_gpu_quantity_is_digit_count scheduledWorkload (testNode "node2" 4)
  have h2 := h.2.2 (by norm_num [scheduledWorkload, sampleSpec])
    (by norm_num [scheduledWorkload, sampleSpec])
  exact ⟨by norm_num [sampleSpec], h2.1,
    h2.2.2 (by norm_num [scheduledWorkload, sampleSpec])⟩

end GPUOrch
